import Mathlib

/-!
# Verification of the voice-request lifecycle layer

A shallow embedding of the voice server's core (`server.py`, the MCP polling
client `client.py`, and the pipeline script `voice-claude.py`), together with
theorems settling the specification's claims about it.

The registry `voice_requests` is modelled as an association list from request
ids to `VoiceRequest` records; each HTTP handler becomes a pure function from
a registry to a registry plus a result.  External I/O (the Wyoming event
stream, the Claude subprocess, wall-clock time) is passed in explicitly as
data, so every function here is total and executable.
-/

namespace ClaudeVoice

/-- The `status` field of a voice request: one of the five string values the
server stores (`"pending"`, `"recording"`, `"processing"`, `"completed"`,
`"error"`). -/
inductive Status
  | pending
  | recording
  | processing
  | completed
  | error
deriving DecidableEq, Repr

/-- One entry of the `voice_requests` dict.  `request_voice_input` creates it
with keys `status`, `transcript`, `language`, `created_at`; the `error` key is
absent until the error branch of `submit_voice_input` adds it, which we model
as an `Option` that starts out `none` (matching `req.get("error")`). -/
structure VoiceRequest where
  status : Status
  transcript : Option String
  language : String
  err : Option String
  createdAt : Nat
deriving DecidableEq, Repr

/-- The in-memory `voice_requests` map, as an association list keyed by
request id. -/
def Registry := List (String × VoiceRequest)

/-- Dict lookup `voice_requests[request_id]` / `request_id in voice_requests`. -/
def Registry.find : Registry → String → Option VoiceRequest
  | [], _ => none
  | (k, v) :: rest, id => if k = id then some v else Registry.find rest id

/-- Dict assignment `voice_requests[request_id] = req` (overwrites an existing
binding, appends a fresh one). -/
def Registry.set : Registry → String → VoiceRequest → Registry
  | [], id, r => [(id, r)]
  | (k, v) :: rest, id, r =>
    if k = id then (id, r) :: rest else (k, v) :: Registry.set rest id r

/-- Result of `POST /api/claim-request/{id}`: HTTP 404, HTTP 400 (carrying the
offending status), or success with the new `recording` status. -/
inductive ClaimResult
  | notFound
  | invalidTransition (st : Status)
  | ok
deriving DecidableEq, Repr

/-- `claim_request` (server.py 431-444): 404 for an unknown id; 400 if the
status is not `pending`; otherwise sets the status to `recording`.  The
registry is returned unchanged on the failure paths, because the handler
raises before mutating. -/
def claim_request (reg : Registry) (id : String) : Registry × ClaimResult :=
  match reg.find id with
  | none => (reg, .notFound)
  | some req =>
    if req.status = .pending then
      (reg.set id { req with status := .recording }, .ok)
    else
      (reg, .invalidTransition req.status)

/-- Result of `POST /api/submit-voice/{id}`: 404, 400 (wrong state), success
with the transcript, or the re-raised transcription exception (HTTP 500). -/
inductive SubmitResult
  | notFound
  | invalidTransition (st : Status)
  | completed (transcript : String)
  | serverError (msg : String)
deriving DecidableEq, Repr

/-- `submit_voice_input` (server.py 447-486).  `transcribe` stands for the
awaited call `transcribe_audio(audio_path, language=language)`: it receives
the stored language and yields either the transcript or a raised exception's
message.  The handler checks the id and status under the lock, marks the
request `processing`, transcribes, and then either stores the transcript with
status `completed` or stores the exception message with status `error` and
re-raises. -/
def submit_voice_input (reg : Registry) (id : String)
    (transcribe : String → Except String String) : Registry × SubmitResult :=
  match reg.find id with
  | none => (reg, .notFound)
  | some req =>
    if req.status = .pending ∨ req.status = .recording then
      let procReq := { req with status := Status.processing }
      let reg1 := reg.set id procReq
      match transcribe req.language with
      | .ok t =>
        (reg1.set id { procReq with transcript := some t, status := .completed },
         .completed t)
      | .error e =>
        (reg1.set id { procReq with status := .error, err := some e },
         .serverError e)
    else
      (reg, .invalidTransition req.status)

/-- The JSON body returned by `GET /api/result/{id}`. -/
structure ResultSnapshot where
  status : Status
  transcript : Option String
  err : Option String
deriving DecidableEq, Repr

/-- `get_voice_result` (server.py 489-501): 404 for an unknown id, otherwise a
read-only snapshot `{status, transcript, error}`.  It never mutates the
registry. -/
def get_voice_result (reg : Registry) (id : String) : Option ResultSnapshot :=
  match reg.find id with
  | none => none
  | some req => some ⟨req.status, req.transcript, req.err⟩

/-- `request_voice_input` (server.py 399-416): inserts a fresh request with
status `pending`, `transcript: None`, the given language, no `error` key, and
the current loop time.  `id` stands for the generated `secrets.token_hex(8)`
and `now` for `asyncio.get_event_loop().time()`. -/
def request_voice_input (reg : Registry) (id language : String) (now : Nat) :
    Registry × Status :=
  (reg.set id { status := .pending, transcript := none, language := language,
                err := none, createdAt := now },
   .pending)

/-- `get_pending_requests` (server.py 419-428): the `{id, language}` pairs of
all requests whose status is `pending`. -/
def get_pending_requests (reg : Registry) : List (String × String) :=
  (reg.filter (fun p => p.2.status = .pending)).map (fun p => (p.1, p.2.language))

/-! ## The transcription adapter (`transcribe_audio`, server.py 83-154)

External behaviour is passed in as data: `ReadOutcome` is what one
`client.read_event()` call does inside the read loop, and
`TranscribeAttempt` is everything the environment contributes to one call of
`transcribe_audio` (the 120 s budget, exceptions raised before the read loop,
or the event stream itself). -/

/-- What one `await client.read_event()` inside the read loop does: it yields
an event with a type tag and (for `transcript` events) a `text` field, yields
`None` (end of stream), gets cancelled by the 30 s `asyncio.timeout`, or
raises some other exception. -/
inductive ReadOutcome
  | ev (ty : String) (text : String)
  | eos
  | readTimeout
  | readErr (msg : String)
deriving DecidableEq, Repr

/-- How the read loop in `transcribe_audio` (server.py 114-148) ended. -/
inductive LoopExit
  | transcriptEvent
  | endOfStream
  | ceiling
  | timedOut
  | readFailed (msg : String)
deriving DecidableEq, Repr

/-- The read loop of `transcribe_audio` (server.py 122-139): read an event;
stop on `None`; on a `transcript` event take its `text` and stop; stop once
`event_count` exceeds 100; the surrounding `try` turns an
`asyncio.TimeoutError` or any other exception into an exit that leaves the
transcript empty.  Returns the transcript so far, how the loop exited, and
how many reads it performed.  `count` is the current `event_count`. -/
def readTranscriptLoop (stream : Nat → ReadOutcome) (idx count : Nat) :
    String × LoopExit × Nat :=
  match stream idx with
  | .readTimeout => ("", .timedOut, 1)
  | .readErr m => ("", .readFailed m, 1)
  | .eos => ("", .endOfStream, 1)
  | .ev ty text =>
    if ty = "transcript" then (text, .transcriptEvent, 1)
    else if count + 1 > 100 then ("", .ceiling, 1)
    else
      let r := readTranscriptLoop stream (idx + 1) (count + 1)
      (r.1, r.2.1, r.2.2 + 1)
termination_by 101 - count
decreasing_by omega

/-- The environment of one `transcribe_audio` call: the overall 120 s budget
for lock acquisition plus transcription elapses (`asyncio.TimeoutError` at
server.py 149), an exception is raised before the read loop (connecting,
opening the WAV, streaming the audio — server.py 152 catches it), or the
connection is up and the read loop sees `stream`. -/
inductive TranscribeAttempt
  | overallTimeout
  | connectFailure (msg : String)
  | streamed (stream : Nat → ReadOutcome)

/-- The body of `transcribe_audio` inside the two outer `except` clauses, as a
fallible computation: `.error` is a raised exception escaping the body. -/
def transcribeBody : TranscribeAttempt → Except String String
  | .overallTimeout => .error "asyncio.TimeoutError"
  | .connectFailure m => .error m
  | .streamed s => .ok ((readTranscriptLoop s 0 0).1.trim)

/-- `transcribe_audio` (server.py 83-154): the body wrapped in
`except asyncio.TimeoutError: return ""` and `except Exception: return ""`.
The result is `Except` so that "never throws" is a statement, not a type-level
accident. -/
def transcribe_audio (env : TranscribeAttempt) : Except String String :=
  match transcribeBody env with
  | .ok t => .ok t
  | .error _ => .ok ""

/-- The transcript the event stream carries, defined declaratively: the `text`
of the first `transcript` event, provided it occurs among the reads the loop
performs before any stream-ending outcome and before the event ceiling. -/
def streamTranscript (stream : Nat → ReadOutcome) : String :=
  (readTranscriptLoop stream 0 0).1

/-- `submit_voice_input` composed with the real `transcribe_audio` call it
makes (server.py 470): the Python-level result of `await transcribe_audio`
is `transcribe_audio env`, which characterises what a whole
`POST /api/submit-voice/{id}` does for a given adapter environment. -/
def submitWithAdapter (reg : Registry) (id : String) (env : TranscribeAttempt) :
    Registry × SubmitResult :=
  submit_voice_input reg id (fun _ => transcribe_audio env)

/-! ## The synthesis adapter (`synthesize_speech`, server.py 157-180 and
voice-claude.py 66-92)

Bytes are modelled as `List Nat`; the event stream the Piper connection
yields is a finite list of events followed by end-of-stream (`read_event()`
returning `None`). -/

/-- One event read on the Piper connection: an `audio-chunk` with its payload
bytes (`event.data.get("audio", b"")`), an `audio-stop`, or any other type. -/
inductive SynthEvent
  | audioChunk (payload : List Nat)
  | audioStop
  | other (ty : String)
deriving DecidableEq, Repr

/-- A WAV file as written by `wave.open(..., "wb")`: the declared format
metadata plus the raw frame bytes. -/
structure AudioContainer where
  channels : Nat
  sampleWidth : Nat
  frameRate : Nat
  frames : List Nat
deriving DecidableEq, Repr

/-- The accumulation loop of `synthesize_speech` (server.py 165-172): read
events, appending each `audio-chunk` payload to `audio_chunks`, until
`audio-stop` or end of stream. -/
def synthLoop : List SynthEvent → List (List Nat) → List (List Nat)
  | [], acc => acc
  | .audioChunk p :: rest, acc => synthLoop rest (acc ++ [p])
  | .audioStop :: _, acc => acc
  | .other _ :: rest, acc => synthLoop rest acc

/-- The chunk payloads the loop receives, declaratively: the payloads of the
`audio-chunk` events strictly before the first `audio-stop` (or before the
stream ends). -/
def receivedChunks : List SynthEvent → List (List Nat)
  | [] => []
  | .audioChunk p :: rest => p :: receivedChunks rest
  | .audioStop :: _ => []
  | .other _ :: rest => receivedChunks rest

/-- `synthesize_speech` (server.py 157-180): accumulate chunks; if any
arrived, write a WAV file declaring 1 channel, 2-byte samples, 22050 Hz, with
the concatenated chunk bytes as frames; if none arrived, write nothing. -/
def synthesize_speech (events : List SynthEvent) : Option AudioContainer :=
  let chunks := synthLoop events []
  if chunks = [] then none
  else some ⟨1, 2, 22050, chunks.flatten⟩

/-! ## The conversation session (`ClaudeSession`, server.py 183-284)

The interactive subprocess, the one-shot `subprocess.run`, and the history
file are passed in as data.  Both `send_message` and `_fallback_message` put
their history appends and the `_save_history()` call *inside* the `try`
block, so an exception has two distinct shapes: one raised while exchanging
(before any append) and one raised by `_save_history` (after both appends).
`ExchangeOutcome` distinguishes them. -/

/-- One element of `conversation_history`: `{"role": ..., "content": ...}`. -/
structure Turn where
  role : String
  content : String
deriving DecidableEq, Repr

/-- A `ClaudeSession`'s mutable state: the in-memory `conversation_history`
and the whole-file snapshot `_save_history` last wrote (`none` when the
history file has not been written yet). -/
structure SessionState where
  history : List Turn
  saved : Option (List Turn)
deriving DecidableEq, Repr

/-- The context string `_fallback_message` builds (server.py 252-257): the
last 6 turns (3 exchanges) rendered as `User:`/`Assistant:` lines joined by
blank lines. -/
def buildContext (history : List Turn) : String :=
  String.intercalate "\n\n"
    ((history.drop (history.length - 6)).map
      (fun t => (if t.role = "user" then "User" else "Assistant") ++ ": " ++ t.content))

/-- The prompt `_fallback_message` passes to `claude chat -m`
(server.py 259). -/
def fullPrompt (history : List Turn) (prompt : String) : String :=
  let context := buildContext history
  if context = "" then prompt else context ++ "\n\nUser: " ++ prompt

/-- What one variant's `try` block does, beyond the appends themselves (list
appends cannot fail): the exchange — writing the prompt and reading the
response, or `subprocess.run` — raises before any append; or the exchange
produces `response` and the subsequent `_save_history()` succeeds; or the
exchange produces `response`, both turns are appended, and then
`_save_history()` raises. -/
inductive ExchangeOutcome
  | exchangeRaises (msg : String)
  | ok (response : String)
  | saveRaises (response : String) (msg : String)
deriving DecidableEq, Repr

/-- `_fallback_message` (server.py 249-277): run `claude chat -m` on the
built prompt; on success append the user and assistant turns and rewrite the
history file; on an exception return `"Error: ..."` — the `try` covers the
appends and the save, so a `_save_history` failure returns the error string
with both turns already appended (and the file not rewritten, which we model
by keeping the previous snapshot; a rewrite failing mid-write may in reality
truncate the file, per the spec's crash-safety caveat). -/
def fallback_message (s : SessionState) (prompt : String)
    (oneShot : String → ExchangeOutcome) : SessionState × String :=
  match oneShot (fullPrompt s.history prompt) with
  | .ok response =>
    let h := s.history ++ [⟨"user", prompt⟩, ⟨"assistant", response⟩]
    (⟨h, some h⟩, response)
  | .saveRaises response e =>
    (⟨s.history ++ [⟨"user", prompt⟩, ⟨"assistant", response⟩], s.saved⟩,
     "Error: " ++ e)
  | .exchangeRaises e => (s, "Error: " ++ e)

/-- `send_message` (server.py 216-247): try the interactive exchange; on
success append both turns and rewrite the history file; on any exception in
the `try` block fall back to `_fallback_message`.  Because the `try` covers
the appends and the save, a `_save_history` failure falls back with the user
and assistant turns already in `conversation_history` (and the fallback then
builds its context from that longer history). -/
def send_message (s : SessionState) (prompt : String)
    (interactive : ExchangeOutcome)
    (oneShot : String → ExchangeOutcome) : SessionState × String :=
  match interactive with
  | .ok response =>
    let h := s.history ++ [⟨"user", prompt⟩, ⟨"assistant", response⟩]
    (⟨h, some h⟩, response)
  | .saveRaises response _ =>
    fallback_message
      ⟨s.history ++ [⟨"user", prompt⟩, ⟨"assistant", response⟩], s.saved⟩
      prompt oneShot
  | .exchangeRaises _ => fallback_message s prompt oneShot

/-- A `send_message` call is successful when it returns a backend reply
rather than a best-effort `"Error: ..."` string: the variant that answered
ran to the end of its `try` block. -/
def sendSucceeds (s : SessionState) (prompt : String)
    (interactive : ExchangeOutcome)
    (oneShot : String → ExchangeOutcome) : Prop :=
  (∃ r, interactive = .ok r) ∨
  (∃ e r, interactive = .exchangeRaises e ∧
    oneShot (fullPrompt s.history prompt) = .ok r) ∨
  (∃ r e r', interactive = .saveRaises r e ∧
    oneShot (fullPrompt (s.history ++ [⟨"user", prompt⟩, ⟨"assistant", r⟩])
      prompt) = .ok r')

/-- A `send_message` call that succeeds with no persistence failure on the
way: the interactive `try` block ran to completion, or it raised before its
appends and the fallback's `try` block ran to completion. -/
def sendOkClean (s : SessionState) (prompt : String)
    (interactive : ExchangeOutcome)
    (oneShot : String → ExchangeOutcome) : Prop :=
  (∃ r, interactive = .ok r) ∨
  (∃ e r, interactive = .exchangeRaises e ∧
    oneShot (fullPrompt s.history prompt) = .ok r)

/-! ## The polling client (`VoiceClient.get_voice_input`,
mcp-server client.py 11-54)

Time is discretised at the loop's own granularity: the loop body runs once
per second (`asyncio.sleep(1)` plus a result fetch), so `poll n` is the
snapshot `GET /api/result/{id}` returns at the iteration where
`elapsed = n` seconds.  `get_voice_input` creates the request and then runs
this loop from `n = 0`. -/

/-- How `get_voice_input` ends: the transcript field of a `completed`
snapshot, or the raised `TimeoutError`. -/
inductive PollOutcome
  | transcript (t : Option String)
  | timedOut
deriving DecidableEq, Repr

/-- The polling loop (client.py 38-54), from iteration `n`: raise
`TimeoutError` when `elapsed > timeout`; otherwise fetch the snapshot and
return its transcript if the status is `completed`; otherwise sleep 1 s and
retry.  Besides the outcome it returns the elapsed time (in seconds) at the
iteration where the loop ended. -/
def pollLoop (poll : Nat → ResultSnapshot) (timeout : Nat) (n : Nat) :
    PollOutcome × Nat :=
  if timeout < n then (.timedOut, n)
  else if (poll n).status = .completed then (.transcript (poll n).transcript, n)
  else pollLoop poll timeout (n + 1)
termination_by timeout + 1 - n
decreasing_by omega

/-- `get_voice_input` (client.py 11-54): create a request, then poll from a
start timestamp of 0. -/
def get_voice_input (poll : Nat → ResultSnapshot) (timeout : Nat) :
    PollOutcome × Nat :=
  pollLoop poll timeout 0

/-! ## Operation sequences over the registry

Every route that mutates `voice_requests` is one of the three below;
`get_voice_result` and `get_pending_requests` only read.  A fold of `Op`s
from the empty map reproduces every registry state the server can reach. -/

/-- One state-changing registry operation, with the data the handler receives
from outside: the generated id, the request body, and (for submit) the result
of the `transcribe_audio` call. -/
inductive Op
  | create (id language : String) (now : Nat)
  | claim (id : String)
  | submit (id : String) (tr : String → Except String String)

/-- Apply one operation, keeping only the registry. -/
def applyOp (reg : Registry) : Op → Registry
  | .create id language now => (request_voice_input reg id language now).1
  | .claim id => (claim_request reg id).1
  | .submit id tr => (submit_voice_input reg id tr).1

/-- Apply a sequence of operations starting from the empty registry. -/
def applyOps (ops : List Op) : Registry :=
  ops.foldl applyOp ([] : Registry)

/-- The per-request invariant of the spec's data model: `transcript` and
`error` are never both set, and both are unset while the status is `pending`
or `recording`. -/
def ReqInv (r : VoiceRequest) : Prop :=
  ¬(r.transcript.isSome ∧ r.err.isSome) ∧
  (r.status = .pending ∨ r.status = .recording → r.transcript = none ∧ r.err = none)

/-- The registry-wide invariant: every stored request satisfies `ReqInv`. -/
def RegInv (reg : Registry) : Prop :=
  ∀ id r, reg.find id = some r → ReqInv r

/-! ## Concrete data used by the witness theorems -/

/-- A freshly created request, as `request_voice_input` stores it. -/
def freshReq (language : String) : VoiceRequest :=
  { status := .pending, transcript := none, language := language, err := none,
    createdAt := 0 }

/-- A one-request registry holding a fresh `"fr"` request under id `"a"`. -/
def regW : Registry := [("a", freshReq "fr")]

/-- A transcription call that returns the transcript `"bonjour"`. -/
def trOkW : String → Except String String := fun _ => .ok "bonjour"

/-- A snapshot stream that reports a terminal `error` request forever. -/
def pollErrW : Nat → ResultSnapshot :=
  fun _ => ⟨Status.error, none, some "whisper unreachable"⟩

/-- A snapshot stream that reports `pending` for two seconds and `completed`
with transcript `"salut"` from second 2 on. -/
def pollOkW : Nat → ResultSnapshot :=
  fun n => if n < 2 then ⟨Status.pending, none, none⟩
           else ⟨Status.completed, some "salut", none⟩

/-- A snapshot stream that reports `pending` forever. -/
def pollPendW : Nat → ResultSnapshot :=
  fun _ => ⟨Status.pending, none, none⟩

/-- An event stream whose third event is the transcript result. -/
def streamOkW : Nat → ReadOutcome :=
  fun n => if n < 2 then .ev "audio-chunk" "" else .ev "transcript" " bonjour "

/-! ## Lemmas about the registry map -/

/-- Looking up the id just written returns the written record. -/
theorem find_set_self (reg : Registry) (id : String) (r : VoiceRequest) :
    (reg.set id r).find id = some r := by
  induction reg with
  | nil => simp [Registry.set, Registry.find]
  | cons p rest ih =>
    obtain ⟨k, v⟩ := p
    by_cases h : k = id
    · simp [Registry.set, Registry.find, h]
    · simp [Registry.set, Registry.find, h, ih]

/-- Writing one id leaves every other id's record unchanged. -/
theorem find_set_ne (reg : Registry) (id id' : String) (r : VoiceRequest)
    (h : id' ≠ id) :
    (reg.set id r).find id' = reg.find id' := by
  induction reg with
  | nil => simp [Registry.set, Registry.find, Ne.symm h]
  | cons p rest ih =>
    obtain ⟨k, v⟩ := p
    by_cases hk : k = id
    · subst hk
      simp [Registry.set, Registry.find, Ne.symm h]
    · by_cases hk' : k = id'
      · simp [Registry.set, Registry.find, hk, hk', h]
      · simp [Registry.set, Registry.find, hk, hk', ih]

/-! ## C1: the transition table -/

/-- **C1.** For every request id and registry operation, only the transitions
of the §4.1 table succeed: `claim_request` succeeds exactly from `pending`
(moving to `recording`), `submit_voice_input` exactly from `pending` or
`recording` (moving to `processing`, whence its completion stores the
transcript with status `completed` and its failure branch stores the message
with status `error`); any other attempt returns `NotFound` for an unknown id
or `InvalidTransition` for a known id in the wrong status and leaves the
whole registry — hence the stored status, transcript, and error — unchanged;
`get_voice_result` is read-only and reports the stored fields. -/
theorem registry_transition_table (reg : Registry) (id : String)
    (tr : String → Except String String) :
    (reg.find id = none →
      claim_request reg id = (reg, .notFound) ∧
      submit_voice_input reg id tr = (reg, .notFound) ∧
      get_voice_result reg id = none) ∧
    (∀ req, reg.find id = some req →
      (req.status = .pending →
        claim_request reg id = (reg.set id { req with status := .recording }, .ok)) ∧
      (req.status ≠ .pending →
        claim_request reg id = (reg, .invalidTransition req.status)) ∧
      (¬(req.status = .pending ∨ req.status = .recording) →
        submit_voice_input reg id tr = (reg, .invalidTransition req.status)) ∧
      ((req.status = .pending ∨ req.status = .recording) →
        (∀ t, tr req.language = .ok t →
          (submit_voice_input reg id tr).1.find id =
            some { req with status := .completed, transcript := some t } ∧
          (submit_voice_input reg id tr).2 = .completed t) ∧
        (∀ e, tr req.language = .error e →
          (submit_voice_input reg id tr).1.find id =
            some { req with status := .error, err := some e } ∧
          (submit_voice_input reg id tr).2 = .serverError e)) ∧
      get_voice_result reg id = some ⟨req.status, req.transcript, req.err⟩) := by
  constructor
  · intro h
    refine ⟨?_, ?_, ?_⟩ <;>
      simp [claim_request, submit_voice_input, get_voice_result, h]
  · intro req h
    refine ⟨?_, ?_, ?_, ?_, ?_⟩
    · intro hp
      simp [claim_request, h, hp]
    · intro hp
      simp [claim_request, h, hp]
    · intro hns
      simp [submit_voice_input, h, hns]
    · intro hs
      constructor
      · intro t ht
        simp [submit_voice_input, h, hs, ht, find_set_self]
      · intro e he
        simp [submit_voice_input, h, hs, he, find_set_self]
    · simp [get_voice_result, h]

/-- Witness for C1: on a concrete registry, claiming a pending request
succeeds, submitting it yields the transcript, and an unknown id is
`NotFound`. -/
theorem registry_transition_table_witness :
    claim_request regW "a" =
      (regW.set "a" { freshReq "fr" with status := .recording }, .ok) ∧
    (submit_voice_input regW "a" trOkW).2 = .completed "bonjour" ∧
    claim_request [] "a" = ([], .notFound) := by
  have h := registry_transition_table regW "a" trOkW
  have hfind : regW.find "a" = some (freshReq "fr") := by
    simp [regW, Registry.find]
  refine ⟨(h.2 (freshReq "fr") hfind).1 rfl, ?_, ?_⟩
  · exact (((h.2 (freshReq "fr") hfind).2.2.2.1 (Or.inl rfl)).1 "bonjour" rfl).2
  · exact ((registry_transition_table [] "a" trOkW).1 rfl).1

/-! ## C8: transcript and error stay mutually exclusive -/

/-- Every state-changing operation preserves the registry invariant. -/
theorem regInv_applyOp (reg : Registry) (op : Op) (h : RegInv reg) :
    RegInv (applyOp reg op) := by
  cases op with
  | create id language now =>
    intro id' r hr
    by_cases hid : id' = id
    · subst hid
      rw [applyOp, request_voice_input] at hr
      rw [find_set_self, Option.some_inj] at hr
      subst hr
      exact ⟨by simp, fun _ => ⟨rfl, rfl⟩⟩
    · rw [applyOp, request_voice_input, find_set_ne _ _ _ _ hid] at hr
      exact h id' r hr
  | claim id =>
    intro id' r hr
    rcases hfind : reg.find id with _ | req
    · simp only [applyOp, claim_request, hfind] at hr
      exact h id' r hr
    · by_cases hp : req.status = .pending
      · have hnone := (h id req hfind).2 (Or.inl hp)
        simp only [applyOp, claim_request, hfind, hp, if_true] at hr
        by_cases hid : id' = id
        · subst hid
          rw [find_set_self, Option.some_inj] at hr
          subst hr
          exact ⟨by simp [hnone.1], fun _ => ⟨hnone.1, hnone.2⟩⟩
        · rw [find_set_ne _ _ _ _ hid] at hr
          exact h id' r hr
      · simp only [applyOp, claim_request, hfind, hp, if_false] at hr
        exact h id' r hr
  | submit id tr =>
    intro id' r hr
    rcases hfind : reg.find id with _ | req
    · simp only [applyOp, submit_voice_input, hfind] at hr
      exact h id' r hr
    · by_cases hs : req.status = .pending ∨ req.status = .recording
      · have hnone := (h id req hfind).2 hs
        rcases htr : tr req.language with e | t
        · simp only [applyOp, submit_voice_input, hfind, hs, if_true, htr] at hr
          by_cases hid : id' = id
          · subst hid
            rw [find_set_self, Option.some_inj] at hr
            subst hr
            refine ⟨by simp [hnone.1], ?_⟩
            intro hc
            simp at hc
          · rw [find_set_ne _ _ _ _ hid, find_set_ne _ _ _ _ hid] at hr
            exact h id' r hr
        · simp only [applyOp, submit_voice_input, hfind, hs, if_true, htr] at hr
          by_cases hid : id' = id
          · subst hid
            rw [find_set_self, Option.some_inj] at hr
            subst hr
            refine ⟨by simp [hnone.2], ?_⟩
            intro hc
            simp at hc
          · rw [find_set_ne _ _ _ _ hid, find_set_ne _ _ _ _ hid] at hr
            exact h id' r hr
      · simp only [applyOp, submit_voice_input, hfind, hs, if_false] at hr
        exact h id' r hr

/-- **C8.** Along every sequence of registry operations from the empty map,
every stored request keeps `transcript` and `error` mutually exclusive, and
both unset while its status is `pending` or `recording`; and reading a
request right after creating it reports status `pending` with `transcript`
and `error` both null. -/
theorem transcript_error_exclusive (ops : List Op) :
    RegInv (applyOps ops) ∧
    (∀ reg id language now,
      get_voice_result (request_voice_input reg id language now).1 id =
        some ⟨.pending, none, none⟩) := by
  constructor
  · have hgen : ∀ (l : List Op) (reg : Registry),
        RegInv reg → RegInv (List.foldl applyOp reg l) := by
      intro l
      induction l with
      | nil => intro reg h; exact h
      | cons op rest ih =>
        intro reg h
        exact ih _ (regInv_applyOp reg op h)
    apply hgen
    intro id r hr
    simp [Registry.find] at hr
  · intro reg id language now
    simp [get_voice_result, request_voice_input, find_set_self]

/-- Witness for C8: the invariant evaluated after a concrete create-claim
sequence, and the get-after-create snapshot at concrete inputs. -/
theorem transcript_error_exclusive_witness :
    ReqInv { status := .recording, transcript := none, language := "fr",
             err := none, createdAt := 0 } ∧
    get_voice_result (request_voice_input [] "a" "fr" 0).1 "a" =
      some ⟨.pending, none, none⟩ := by
  constructor
  · exact (transcript_error_exclusive [Op.create "a" "fr" 0, Op.claim "a"]).1 "a" _
      (by simp [applyOps, applyOp, request_voice_input, claim_request,
                Registry.set, Registry.find])
  · exact (transcript_error_exclusive []).2 [] "a" "fr" 0

/-! ## Shared lemmas about the read loop and `.strip()` -/

/-- Bounded-reads and nonempty-text invariant of the read loop, by induction
on the remaining event budget: starting from `event_count = count ≤ 100`, the
loop performs at most `101 - count` reads, and its transcript is non-empty
only when it exited on a `transcript` event. -/
theorem readLoop_bounded (stream : Nat → ReadOutcome) :
    ∀ (n count idx : Nat), count ≤ 100 → 100 - count ≤ n →
      (readTranscriptLoop stream idx count).2.2 ≤ 101 - count ∧
      ((readTranscriptLoop stream idx count).1 ≠ "" →
        (readTranscriptLoop stream idx count).2.1 = .transcriptEvent) := by
  intro n
  induction n with
  | zero =>
    intro count idx hc hn
    have hc' : count = 100 := by omega
    subst hc'
    rw [readTranscriptLoop]
    rcases stream idx with ⟨ty, text⟩ | _ | _ | m
    · by_cases ht : ty = "transcript" <;> simp [ht]
    · simp
    · simp
    · simp
  | succ n ih =>
    intro count idx hc hn
    rw [readTranscriptLoop]
    rcases stream idx with ⟨ty, text⟩ | _ | _ | m
    · by_cases ht : ty = "transcript"
      · simp [ht]
        omega
      · by_cases hcount : count + 1 > 100
        · simp [ht, hcount]
          omega
        · have hrec := ih (count + 1) (idx + 1) (by omega) (by omega)
          simp [ht, hcount]
          exact ⟨by omega, hrec.2⟩
    · simp; omega
    · simp; omega
    · simp; omega

/-- `.strip()` of the empty string is the empty string. -/
theorem trim_empty : "".trim = "" := by
  simp [String.trim, Substring.trim, String.toSubstring, Substring.takeWhileAux,
    Substring.takeRightWhileAux, Substring.toString, String.extract,
    String.endPos, String.utf8ByteSize]

/-! ## C2: adapter failures and the owning request -/

/-- Counterexample to C2 as stated: with a pending request `"a"` and an
adapter whose connection fails, the request does **not** end in status
`error` — `transcribe_audio` swallows the exception and returns the empty
transcript, so the request completes with status `completed`, transcript
`""`, and no recorded error; the polling snapshot shows
`{status: completed, transcript: "", error: null}`. -/
theorem adapter_failure_not_recorded :
    (submitWithAdapter regW "a" (.connectFailure "connection refused")).1.find "a" =
      some { status := .completed, transcript := some "", language := "fr",
             err := none, createdAt := 0 } ∧
    get_voice_result (submitWithAdapter regW "a" (.connectFailure "connection refused")).1
        "a" = some ⟨.completed, some "", none⟩ ∧
    (submitWithAdapter regW "a" (.connectFailure "connection refused")).2 =
      .completed "" := by
  refine ⟨rfl, rfl, rfl⟩

/-- **C2 (amended).** An adapter-level failure during transcription — the
overall budget elapsing, a transport failure (a connection failure or any
other exception raised before the read loop), or a protocol desync (the
event stream ending by any means other than a transcript-result event:
end of stream, the event ceiling, the read timeout, or a read exception) —
is captured inside `transcribe_audio`, which returns an empty transcript
instead of raising; the owning request therefore finishes with status
`completed`, transcript `""`, and no recorded error, the handler returns
normally (never crashing the process), and no other request is affected.
(The handler's own `except` branch would record a propagated exception as
`error`, but `transcribe_audio`'s catch-all prevents any from
propagating.) -/
theorem adapter_failure_swallowed (reg : Registry) (id : String)
    (req : VoiceRequest) (env : TranscribeAttempt)
    (hfind : reg.find id = some req)
    (hs : req.status = .pending ∨ req.status = .recording)
    (hfail : env = .overallTimeout ∨ (∃ m, env = .connectFailure m) ∨
      (∃ strm, env = .streamed strm ∧
        (readTranscriptLoop strm 0 0).2.1 ≠ .transcriptEvent)) :
    (submitWithAdapter reg id env).2 = .completed "" ∧
    (submitWithAdapter reg id env).1.find id =
      some { req with status := .completed, transcript := some "" } ∧
    (∀ id', id' ≠ id → (submitWithAdapter reg id env).1.find id' = reg.find id') := by
  have htr : transcribe_audio env = .ok "" := by
    rcases hfail with h | ⟨m, h⟩ | ⟨strm, h, hdesync⟩
    · subst h; rfl
    · subst h; rfl
    · subst h
      have hempty : (readTranscriptLoop strm 0 0).1 = "" := by
        by_contra hne
        exact hdesync ((readLoop_bounded strm 100 0 0 (by omega) (by omega)).2 hne)
      simp [transcribe_audio, transcribeBody, hempty, trim_empty]
  refine ⟨?_, ?_, ?_⟩
  · simp [submitWithAdapter, submit_voice_input, hfind, hs, htr]
  · simp [submitWithAdapter, submit_voice_input, hfind, hs, htr, find_set_self]
  · intro id' hid
    simp [submitWithAdapter, submit_voice_input, hfind, hs, htr,
          find_set_ne _ _ _ _ hid]

/-- Witness for the amended C2, at a concrete registry: under a concrete
connection failure the request completes with an empty transcript and an
unrelated id stays absent, and under a concrete protocol desync (a stream
that ends on the first read) it completes with an empty transcript too. -/
theorem adapter_failure_swallowed_witness :
    (submitWithAdapter regW "a" (.connectFailure "boom")).2 = .completed "" ∧
    (submitWithAdapter regW "a" (.connectFailure "boom")).1.find "b" = none ∧
    (submitWithAdapter regW "a" (.streamed (fun _ => .eos))).2 = .completed "" := by
  have hfind : regW.find "a" = some (freshReq "fr") := by
    simp [regW, Registry.find]
  have h := adapter_failure_swallowed regW "a" (freshReq "fr")
    (.connectFailure "boom") hfind (Or.inl rfl) (Or.inr (Or.inl ⟨"boom", rfl⟩))
  have hdesync : (readTranscriptLoop (fun _ => ReadOutcome.eos) 0 0).2.1 ≠
      LoopExit.transcriptEvent := by
    rw [readTranscriptLoop]
    simp
  have h2 := adapter_failure_swallowed regW "a" (freshReq "fr")
    (.streamed (fun _ => .eos)) hfind (Or.inl rfl)
    (Or.inr (Or.inr ⟨fun _ => .eos, rfl, hdesync⟩))
  refine ⟨h.1, ?_, h2.1⟩
  rw [h.2.2 "b" (by decide)]
  rfl

/-! ## C3: `transcribe_audio` degrades to an empty transcript -/

/-- **C3.** `transcribe_audio` never raises to its caller: when the overall
120 s lock-plus-transcription budget elapses it returns an empty transcript,
when any exception occurs before or during the read loop it returns an empty
transcript, and on a live stream it returns the loop's transcript trimmed of
surrounding whitespace — so for every environment it returns some transcript
and never an error. -/
theorem transcribe_total_trimmed (env : TranscribeAttempt) :
    (env = .overallTimeout → transcribe_audio env = .ok "") ∧
    (∀ m, env = .connectFailure m → transcribe_audio env = .ok "") ∧
    (∀ s, env = .streamed s →
      transcribe_audio env = .ok (streamTranscript s).trim) ∧
    (∃ t, transcribe_audio env = .ok t) := by
  refine ⟨?_, ?_, ?_, ?_⟩
  · intro h; subst h; rfl
  · intro m h; subst h; rfl
  · intro s h; subst h; rfl
  · cases env with
    | overallTimeout => exact ⟨"", rfl⟩
    | connectFailure m => exact ⟨"", rfl⟩
    | streamed s => exact ⟨(streamTranscript s).trim, rfl⟩

/-- Witness for C3: each hypothesis discharged at a concrete environment; the
concrete stream's raw transcript is evaluated to `" bonjour "`. -/
theorem transcribe_total_trimmed_witness :
    transcribe_audio .overallTimeout = .ok "" ∧
    transcribe_audio (.connectFailure "boom") = .ok "" ∧
    transcribe_audio (.streamed streamOkW) = .ok (" bonjour ".trim) := by
  refine ⟨(transcribe_total_trimmed .overallTimeout).1 rfl,
          (transcribe_total_trimmed (.connectFailure "boom")).2.1 "boom" rfl, ?_⟩
  have h := (transcribe_total_trimmed (.streamed streamOkW)).2.2.1 streamOkW rfl
  have hst : streamTranscript streamOkW = " bonjour " := by
    simp [streamTranscript, readTranscriptLoop, streamOkW]
  rw [h, hst]

/-! ## C6: the read loop terminates -/

/-- Counterexample to C6 as stated: an event stream that ends immediately
(`read_event()` returns `None` on the first read) terminates the loop by a
fourth condition — end of stream — which is none of the claimed three
(transcript-result, event-count ceiling, per-read timeout). -/
theorem readLoop_eos_counterexample :
    readTranscriptLoop (fun _ => .eos) 0 0 = ("", .endOfStream, 1) ∧
    LoopExit.endOfStream ≠ .transcriptEvent ∧
    LoopExit.endOfStream ≠ .ceiling ∧
    LoopExit.endOfStream ≠ .timedOut := by
  refine ⟨?_, by decide, by decide, by decide⟩
  rw [readTranscriptLoop]

/-- **C6 (amended).** The transcription event-read loop always terminates —
it performs at most 101 reads — and it ends by exactly one of five
conditions: a transcript-result event arrives, the 100-event ceiling is hit,
the read timeout elapses, the stream ends (`read_event()` returns `None`), or
reading raises; only the transcript-result path can yield non-empty text. -/
theorem readLoop_terminates (stream : Nat → ReadOutcome) :
    (readTranscriptLoop stream 0 0).2.2 ≤ 101 ∧
    ((readTranscriptLoop stream 0 0).2.1 = .transcriptEvent ∨
     (readTranscriptLoop stream 0 0).2.1 = .ceiling ∨
     (readTranscriptLoop stream 0 0).2.1 = .timedOut ∨
     (readTranscriptLoop stream 0 0).2.1 = .endOfStream ∨
     ∃ m, (readTranscriptLoop stream 0 0).2.1 = .readFailed m) ∧
    ((readTranscriptLoop stream 0 0).1 ≠ "" →
      (readTranscriptLoop stream 0 0).2.1 = .transcriptEvent) := by
  have h := readLoop_bounded stream 100 0 0 (by omega) (by omega)
  refine ⟨h.1, ?_, h.2⟩
  rcases hx : (readTranscriptLoop stream 0 0).2.1 with _ | _ | _ | _ | m
  · exact Or.inl rfl
  · exact Or.inr (Or.inr (Or.inr (Or.inl rfl)))
  · exact Or.inr (Or.inl rfl)
  · exact Or.inr (Or.inr (Or.inl rfl))
  · exact Or.inr (Or.inr (Or.inr (Or.inr ⟨m, rfl⟩)))

/-- Witness for C6 (amended): on the concrete stream, the loop performs 3
reads, exits on the transcript event, and its hypothesis is discharged by the
non-empty transcript `" bonjour "`. -/
theorem readLoop_terminates_witness :
    (readTranscriptLoop streamOkW 0 0).2.2 ≤ 101 ∧
    (readTranscriptLoop streamOkW 0 0).2.1 = .transcriptEvent := by
  have h := readLoop_terminates streamOkW
  have hval : readTranscriptLoop streamOkW 0 0 = (" bonjour ", .transcriptEvent, 3) := by
    simp [readTranscriptLoop, streamOkW]
  exact ⟨h.1, h.2.2 (by rw [hval]; simp)⟩

/-! ## C7: the synthesis output format -/

/-- The accumulation loop computes the declaratively received chunk list,
appended to its accumulator. -/
theorem synthLoop_eq (events : List SynthEvent) :
    ∀ acc, synthLoop events acc = acc ++ receivedChunks events := by
  induction events with
  | nil => intro acc; simp [synthLoop, receivedChunks]
  | cons e rest ih =>
    intro acc
    cases e with
    | audioChunk p => simp [synthLoop, receivedChunks, ih]
    | audioStop => simp [synthLoop, receivedChunks]
    | other ty => simp [synthLoop, receivedChunks, ih]

/-- **C7.** Every `AudioContainer` produced by `synthesize_speech` declares
the same fixed output format regardless of the event stream: 1 channel
(mono), 2-byte (16-bit) samples, and the backend's fixed 22050 Hz rate, and
its frame bytes are the concatenation of the audio-chunk payloads received
before the audio-stop (or end of stream). -/
theorem synthesize_fixed_format (events : List SynthEvent) (c : AudioContainer)
    (h : synthesize_speech events = some c) :
    c.channels = 1 ∧ c.sampleWidth = 2 ∧ c.frameRate = 22050 ∧
    c.frames = (receivedChunks events).flatten := by
  simp only [synthesize_speech, synthLoop_eq events [], List.nil_append] at h
  split at h
  · exact Option.noConfusion h
  · rw [Option.some_inj] at h
    subst h
    exact ⟨rfl, rfl, rfl, rfl⟩

/-- Witness for C7: a concrete stream of one chunk then a stop yields a
container whose declared format and frames evaluate as the theorem states. -/
theorem synthesize_fixed_format_witness :
    synthesize_speech [SynthEvent.audioChunk [1, 2], SynthEvent.audioStop] =
      some ⟨1, 2, 22050, [1, 2]⟩ ∧
    (AudioContainer.mk 1 2 22050 [1, 2]).frameRate = 22050 ∧
    (AudioContainer.mk 1 2 22050 [1, 2]).frames =
      (receivedChunks [SynthEvent.audioChunk [1, 2], SynthEvent.audioStop]).flatten := by
  have hval : synthesize_speech [SynthEvent.audioChunk [1, 2], SynthEvent.audioStop] =
      some ⟨1, 2, 22050, [1, 2]⟩ := rfl
  have h := synthesize_fixed_format _ _ hval
  exact ⟨hval, h.2.2.1, h.2.2.2⟩

/-! ## C5 and C10: the polling client -/

/-- If no poll up to the budget reports `completed`, the loop reaches the
first iteration past the budget and raises there. -/
theorem pollLoop_timedOut (poll : Nat → ResultSnapshot) (timeout : Nat) :
    ∀ (m n : Nat), timeout + 1 - n ≤ m → n ≤ timeout + 1 →
      (∀ k, n ≤ k → k ≤ timeout → (poll k).status ≠ .completed) →
      pollLoop poll timeout n = (.timedOut, timeout + 1) := by
  intro m
  induction m with
  | zero =>
    intro n hm hn hnc
    have h : n = timeout + 1 := by omega
    subst h
    rw [pollLoop]
    simp
  | succ m ih =>
    intro n hm hn hnc
    by_cases hend : timeout < n
    · have h : n = timeout + 1 := by omega
      subst h
      rw [pollLoop]
      simp
    · rw [pollLoop, if_neg hend, if_neg (hnc n (Nat.le_refl n) (by omega))]
      exact ih (n + 1) (by omega) (by omega) (fun k hk1 hk2 => hnc k (by omega) hk2)

/-- If `c` is the first tick reporting `completed` and lies within the
budget, starting the loop at or before `c` returns that tick's transcript at
elapsed time `c`. -/
theorem pollLoop_completes (poll : Nat → ResultSnapshot) (timeout c : Nat)
    (hc : c ≤ timeout) (hcomp : (poll c).status = .completed)
    (hfirst : ∀ k, k < c → (poll k).status ≠ .completed) :
    ∀ (m n : Nat), c - n ≤ m → n ≤ c →
      pollLoop poll timeout n = (.transcript (poll c).transcript, c) := by
  intro m
  induction m with
  | zero =>
    intro n hm hn
    have h : n = c := by omega
    subst h
    rw [pollLoop, if_neg (by omega : ¬timeout < n), if_pos hcomp]
  | succ m ih =>
    intro n hm hn
    by_cases heq : n = c
    · subst heq
      rw [pollLoop, if_neg (by omega : ¬timeout < n), if_pos hcomp]
    · rw [pollLoop, if_neg (by omega : ¬timeout < n),
          if_neg (hfirst n (by omega))]
      exact ih (n + 1) (by omega) (by omega)

/-- **C5.** `get_voice_input` polls at the loop's fixed 1-second interval:
if the request first reports `completed` at second `c ≤ T`, it returns that
snapshot's transcript at elapsed time `c`; if no poll within the budget
reports `completed`, it raises `TimeoutError` at elapsed time `T + 1 ≥ T`. -/
theorem getVoiceInput_poll_semantics (poll : Nat → ResultSnapshot) (T : Nat) :
    (∀ c, c ≤ T → (poll c).status = .completed →
      (∀ k, k < c → (poll k).status ≠ .completed) →
      get_voice_input poll T = (.transcript (poll c).transcript, c)) ∧
    ((∀ k, k ≤ T → (poll k).status ≠ .completed) →
      get_voice_input poll T = (.timedOut, T + 1) ∧ T ≤ T + 1) := by
  constructor
  · intro c hc hcomp hfirst
    exact pollLoop_completes poll T c hc hcomp hfirst c 0 (by omega) (by omega)
  · intro hnc
    exact ⟨pollLoop_timedOut poll T (T + 1) 0 (by omega) (by omega)
      (fun k _ hk2 => hnc k hk2), by omega⟩

/-- Witness for C5: a request completing at second 2 is returned at second 2
with its transcript, and a never-completing request times out at second 2 of
a 1-second budget. -/
theorem getVoiceInput_poll_semantics_witness :
    get_voice_input pollOkW 5 = (.transcript (some "salut"), 2) ∧
    get_voice_input pollPendW 1 = (.timedOut, 2) := by
  constructor
  · have hfirst : ∀ k, k < 2 → (pollOkW k).status ≠ Status.completed := by
      intro k hk
      interval_cases k <;> simp [pollOkW]
    have h := (getVoiceInput_poll_semantics pollOkW 5).1 2 (by omega)
      (by simp [pollOkW]) hfirst
    rw [h]
    simp [pollOkW]
  · exact ((getVoiceInput_poll_semantics pollPendW 1).2
      (fun k _ => by simp [pollPendW])).1

/-- **C10.** If a voice request sits in the terminal status `error` at every
poll, the polling client never returns and never surfaces the stored error
message: `get_voice_input` only checks for `completed`, so it keeps polling
until its own budget elapses and then raises `TimeoutError`. -/
theorem error_request_times_out (poll : Nat → ResultSnapshot) (T : Nat)
    (herr : ∀ k, k ≤ T → (poll k).status = .error) :
    get_voice_input poll T = (.timedOut, T + 1) ∧
    ∀ t, (get_voice_input poll T).1 ≠ .transcript t := by
  have hnc : ∀ k, k ≤ T → (poll k).status ≠ .completed := by
    intro k hk h
    rw [herr k hk] at h
    exact Status.noConfusion h
  have h : get_voice_input poll T = (.timedOut, T + 1) :=
    pollLoop_timedOut poll T (T + 1) 0 (by omega) (by omega)
      (fun k _ hk2 => hnc k hk2)
  refine ⟨h, ?_⟩
  intro t
  rw [h]
  simp

/-- Witness for C10: against a request stuck in status `error`, a 2-second
poll raises `TimeoutError` at second 3. -/
theorem error_request_times_out_witness :
    get_voice_input pollErrW 2 = (.timedOut, 3) :=
  (error_request_times_out pollErrW 2 (fun _ _ => rfl)).1

/-! ## C9: `send_message` and the two appended turns -/

/-- A `send_message` whose succeeding variant ran its whole `try` block —
exchange, appends, and save — appends the user and assistant turns to the
history and rewrites the history file with the whole new history. -/
theorem send_message_ok (s : SessionState) (prompt : String)
    (interactive : ExchangeOutcome)
    (oneShot : String → ExchangeOutcome)
    (h : sendOkClean s prompt interactive oneShot) :
    ∃ r, send_message s prompt interactive oneShot =
      (⟨s.history ++ [⟨"user", prompt⟩, ⟨"assistant", r⟩],
        some (s.history ++ [⟨"user", prompt⟩, ⟨"assistant", r⟩])⟩, r) := by
  rcases h with ⟨r, hr⟩ | ⟨e, r, he, hr⟩
  · exact ⟨r, by simp [send_message, hr]⟩
  · exact ⟨r, by simp [send_message, fallback_message, he, hr]⟩

/-- Counterexample to C9 as stated: on a fresh session, the interactive
exchange produces `"hi"`, both turns are appended, and then `_save_history`
raises; the fallback — whose one-shot call succeeds — therefore runs with
those turns already in the history and appends two more.  The send is
successful (it returns the backend reply `"again"`), yet it appends four
turns, not two. -/
theorem send_save_failure_four_turns :
    sendSucceeds ⟨[], none⟩ "hello" (.saveRaises "hi" "disk full")
      (fun _ => .ok "again") ∧
    (send_message ⟨[], none⟩ "hello" (.saveRaises "hi" "disk full")
        (fun _ => .ok "again")).2 = "again" ∧
    (send_message ⟨[], none⟩ "hello" (.saveRaises "hi" "disk full")
        (fun _ => .ok "again")).1.history =
      [⟨"user", "hello"⟩, ⟨"assistant", "hi"⟩, ⟨"user", "hello"⟩,
       ⟨"assistant", "again"⟩] ∧
    (send_message ⟨[], none⟩ "hello" (.saveRaises "hi" "disk full")
        (fun _ => .ok "again")).1.history.length ≠ 2 := by
  refine ⟨Or.inr (Or.inr ⟨"hi", "disk full", "again", rfl, rfl⟩), rfl, rfl, ?_⟩
  simp [send_message, fallback_message]

/-- **C9 (amended).** Every successful `send_message` in which the
succeeding variant's `try` block ran with no persistence failure appends
exactly two turns — the user turn then the assistant turn — and persists the
whole history; consequently, after two such sends on a fresh session the
history is exactly 4 turns alternating user/assistant starting with user.
This holds on both backend variants.  (When the interactive path's
`_save_history` raises after its appends, the fallback runs with those turns
already appended, and a send that then succeeds appends four turns — the
counterexample's path.) -/
theorem send_appends_two_turns :
    (∀ (s : SessionState) (prompt : String)
        (interactive : ExchangeOutcome)
        (oneShot : String → ExchangeOutcome),
      sendOkClean s prompt interactive oneShot →
      ∃ r, send_message s prompt interactive oneShot =
        (⟨s.history ++ [⟨"user", prompt⟩, ⟨"assistant", r⟩],
          some (s.history ++ [⟨"user", prompt⟩, ⟨"assistant", r⟩])⟩, r)) ∧
    (∀ (p1 p2 : String) (i1 i2 : ExchangeOutcome)
        (o1 o2 : String → ExchangeOutcome),
      sendOkClean ⟨[], none⟩ p1 i1 o1 →
      sendOkClean (send_message ⟨[], none⟩ p1 i1 o1).1 p2 i2 o2 →
      ∃ r1 r2,
        (send_message (send_message ⟨[], none⟩ p1 i1 o1).1 p2 i2 o2).1.history =
          [⟨"user", p1⟩, ⟨"assistant", r1⟩, ⟨"user", p2⟩, ⟨"assistant", r2⟩] ∧
        (send_message (send_message ⟨[], none⟩ p1 i1 o1).1 p2 i2
          o2).1.history.length = 4) := by
  refine ⟨send_message_ok, ?_⟩
  intro p1 p2 i1 i2 o1 o2 h1 h2
  obtain ⟨r1, hr1⟩ := send_message_ok ⟨[], none⟩ p1 i1 o1 h1
  obtain ⟨r2, hr2⟩ := send_message_ok (send_message ⟨[], none⟩ p1 i1 o1).1 p2 i2 o2 h2
  refine ⟨r1, r2, ?_, ?_⟩ <;> rw [hr2, hr1] <;> simp

/-- Witness for C9 (amended): a concrete fresh session whose first send
succeeds on the interactive channel and whose second send succeeds through
the one-shot fallback ends with a 4-turn alternating history. -/
theorem send_appends_two_turns_witness :
    ∃ r1 r2,
      (send_message (send_message ⟨[], none⟩ "hello" (.ok "hi")
          (fun _ => .exchangeRaises "x")).1 "and?" (.exchangeRaises "broken")
          (fun _ => .ok "fine")).1.history =
        [⟨"user", "hello"⟩, ⟨"assistant", r1⟩, ⟨"user", "and?"⟩,
         ⟨"assistant", r2⟩] ∧
      (send_message (send_message ⟨[], none⟩ "hello" (.ok "hi")
          (fun _ => .exchangeRaises "x")).1 "and?" (.exchangeRaises "broken")
          (fun _ => .ok "fine")).1.history.length = 4 :=
  send_appends_two_turns.2 "hello" "and?" (.ok "hi") (.exchangeRaises "broken")
    (fun _ => .exchangeRaises "x") (fun _ => .ok "fine") (Or.inl ⟨"hi", rfl⟩)
    (Or.inr ⟨"broken", "fine", rfl, rfl⟩)

end ClaudeVoice
